import Mathlib

/-!
Verification of the gosh shell's parsing, tokenization and job-control core.

The definitions below are shallow embeddings of the Go source:
`Token` and its predicate methods, `ParseCommands`, `Tokenize` (the final
tokenizer assembled from the literate fragments: quote handling plus the
special characters `|`, `<`, `>`, `&`), the token-flow part of `HandleCmd`,
the start-and-wait part of `HandleCmd`, the reaping pass of `Wait`,
the `fg` builtin, and `LongestPrefix`.

External effects (environment lookup, globbing, process start, `wait4`
statuses, signals, ioctls) are modelled as explicit parameters or as
effect traces in the result, so every definition stays executable.
A Go runtime panic (out-of-range index or slice) is modelled as `none`.
-/

namespace Gosh

/-- Models the Go type `Token` (a string) from tokenize.go. -/
abbrev Token := String

/-- Models `func (t Token) IsPipe() bool`. -/
def Token.IsPipe (t : Token) : Bool := t == "|"

/-- Models `func (t Token) IsSpecial() bool`. -/
def Token.IsSpecial (t : Token) : Bool := t == "<" || t == ">" || t == "|"

/-- Models `func (t Token) IsStdinRedirect() bool`. -/
def Token.IsStdinRedirect (t : Token) : Bool := t == "<"

/-- Models `func (t Token) IsStdoutRedirect() bool`. -/
def Token.IsStdoutRedirect (t : Token) : Bool := t == ">"

/-- Models `type ParsedCommand struct { Args []string; Stdin string; Stdout string }`. -/
structure ParsedCommand where
  Args : List String
  Stdin : String
  Stdout : String
deriving DecidableEq

/-- The mutable locals of `ParseCommands` (main.go / part_004). -/
structure ParseState where
  currentCmd : ParsedCommand
  allCommands : List ParsedCommand
  lastCommandStart : Nat
  foundSpecial : Bool
  nextStdin : Bool
  nextStdout : Bool
deriving DecidableEq

/-- One iteration of the `for i, t := range tokens` loop body of `ParseCommands`.
`tokens[a:b]` is rendered as `(tokens.drop a).take (b - a)` and `tokens[a:]`
as `tokens.drop a`. -/
def parseStep (tokens : List Token) (i : Nat) (t : Token) (s : ParseState) : ParseState :=
  let s :=
    if s.nextStdin then
      { s with currentCmd := { s.currentCmd with Stdin := t }, nextStdin := false }
    else s
  let s :=
    if s.nextStdout then
      { s with currentCmd := { s.currentCmd with Stdout := t }, nextStdout := false }
    else s
  let s :=
    if t.IsSpecial || i == tokens.length - 1 then
      let s :=
        if s.foundSpecial == false then
          let slice :=
            if i == tokens.length - 1 then tokens.drop s.lastCommandStart
            else (tokens.drop s.lastCommandStart).take (i - s.lastCommandStart)
          { s with currentCmd := { s.currentCmd with Args := s.currentCmd.Args ++ slice } }
        else s
      { s with foundSpecial := true }
    else s
  let s := if t.IsStdinRedirect then { s with nextStdin := true } else s
  let s := if t.IsStdoutRedirect then { s with nextStdout := true } else s
  if t.IsPipe || i == tokens.length - 1 then
    { s with allCommands := s.allCommands ++ [s.currentCmd],
             lastCommandStart := i + 1, foundSpecial := false,
             currentCmd := ⟨[], "", ""⟩ }
  else s

/-- The indexed loop of `ParseCommands`. -/
def parseLoop (tokens : List Token) : Nat → List Token → ParseState → ParseState
  | _, [], s => s
  | i, t :: ts, s => parseLoop tokens (i + 1) ts (parseStep tokens i t s)

/-- Models `func ParseCommands(tokens []Token) []ParsedCommand`. -/
def ParseCommands (tokens : List Token) : List ParsedCommand :=
  (parseLoop tokens 0 tokens ⟨⟨[], "", ""⟩, [], 0, false, false, false⟩).allCommands

/-- Models Go's `unicode.IsSpace`: below U+0100 the Latin-1 white space
characters, above it exactly the Unicode White_Space code points. -/
def goIsSpace (c : Char) : Bool :=
  c.val == 0x09 || c.val == 0x0A || c.val == 0x0B || c.val == 0x0C || c.val == 0x0D ||
  c.val == 0x20 || c.val == 0x85 || c.val == 0xA0 ||
  c.val == 0x1680 || (0x2000 ≤ c.val && c.val ≤ 0x200A) ||
  c.val == 0x2028 || c.val == 0x2029 || c.val == 0x202F || c.val == 0x205F || c.val == 0x3000

/-- Models `strings.Replace(token, "\\'", "'", -1)`: replace every
(non-overlapping, leftmost) occurrence of a backslash-quote pair by a quote. -/
def replaceEscQuote : List Char → List Char
  | [] => []
  | '\\' :: '\'' :: rest => '\'' :: replaceEscQuote rest
  | c :: rest => c :: replaceEscQuote rest

/-- Go string slice `c[a:b]` (both bounds at rune starts). -/
def strSlice (full : List Char) (a b : Nat) : String :=
  String.mk ((full.drop a).take (b - a))

/-- The scanning loop of `Tokenize`, followed by the add-last-token epilogue.
`full` is the whole input, `rest` the part of it from position `i` on,
`tokenStart` the Go local of the same name (`-1` when no token is open),
`inLit` the `inStringLiteral` local and `parsed` the accumulated tokens.
The final version of the tokenizer treats `|`, `<`, `>` and `&` alike
("Handle Special Chr").  Go panics (slice bound past the end in the
epilogue) are modelled as `none`. -/
def tokenizeAux (full : List Char) :
    List Char → Nat → Int → Bool → List String → Option (List String)
  | [], _, tokenStart, inLit, parsed =>
    if tokenStart ≥ 0 then
      -- "Ignore the ' character"
      let ts : Int := if inLit then tokenStart + 1 else tokenStart
      if ts.toNat > full.length then none  -- Go: slice bounds out of range panic
      else some (parsed ++ [String.mk (full.drop ts.toNat)])
    else some parsed
  | chr :: rest, i, tokenStart, inLit, parsed =>
    if chr == '\'' then
      if inLit then
        if i > 0 && full.getD (i - 1) ' ' == '\\' then
          -- the quote was escaped, so ignore it
          tokenizeAux full rest (i + 1) tokenStart inLit parsed
        else
          let token := String.mk (replaceEscQuote ((full.drop tokenStart.toNat).take (i - tokenStart.toNat)))
          tokenizeAux full rest (i + 1) (-1) false (parsed ++ [token])
      else
        -- the literal starts at the next character
        tokenizeAux full rest (i + 1) (Int.ofNat (i + 1)) true parsed
    else if chr == '|' || chr == '<' || chr == '>' || chr == '&' then
      if inLit then tokenizeAux full rest (i + 1) tokenStart inLit parsed
      else
        let parsed :=
          if tokenStart ≥ 0 then parsed ++ [strSlice full tokenStart.toNat i] else parsed
        tokenizeAux full rest (i + 1) (-1) false (parsed ++ [String.mk [chr]])
    else
      if inLit then tokenizeAux full rest (i + 1) tokenStart inLit parsed
      else if goIsSpace chr then
        if tokenStart == -1 then tokenizeAux full rest (i + 1) tokenStart inLit parsed
        else tokenizeAux full rest (i + 1) (-1) inLit (parsed ++ [strSlice full tokenStart.toNat i])
      else if tokenStart == -1 then tokenizeAux full rest (i + 1) (Int.ofNat i) inLit parsed
      else tokenizeAux full rest (i + 1) tokenStart inLit parsed

/-- Models `func (c Command) Tokenize() []string` (final literate version).
`none` models a runtime panic. -/
def Tokenize (c : String) : Option (List String) :=
  tokenizeAux c.data c.data 0 (-1) false []

/-- Where a call of `HandleCmd` (part_004) ends up after the token-flow
prologue: a runtime panic, the empty-command early return, one of the
builtin cases of the switch, or the pipeline path with the stage
descriptors handed to the execution engine and the background flag. -/
inductive CmdDisposition
  | crash
  | empty
  | builtin (name : String)
  | pipeline (commands : List ParsedCommand) (background : Bool)
deriving DecidableEq

/-- The case labels of the builtin switch in `HandleCmd` (part_004). -/
def builtinNames : List String := ["cd", "set", "source", "jobs", "bg", "fg", "autocomplete"]

/-- Models the token-flow prologue of `func (c Command) HandleCmd() error`
(part_004): tokenize; build `args` from `parsed[1:]` via `os.ExpandEnv`,
`replaceTilde` and `filepath.Glob` (all three external, passed as
parameters; `glob = none` models a non-nil error); strip a trailing `&`
from `parsed` and set `backgroundProcess`; dispatch builtins on
`parsed[0]`; otherwise build `parsedtokens` from `parsed[0]` and `args`
and parse them into stage descriptors. -/
def HandleCmdDispatch (expandEnv : String → String) (tilde : String → String)
    (glob : String → Option (List String)) (c : String) : CmdDisposition :=
  match Tokenize c with
  | none => .crash
  | some parsed =>
    if parsed.length == 0 then .empty
    else
      let args := parsed.tail.map expandEnv
      let args := args.foldl (fun newargs token =>
        let token := tilde token
        match glob token with
        | none => newargs ++ [token]
        | some [] => newargs ++ [token]
        | some expanded => newargs ++ expanded) []
      let pb :=
        if parsed.getLast? == some "&" then (parsed.dropLast, true) else (parsed, false)
      match pb.1 with
      | [] => .crash
      | p0 :: _ =>
        if p0 ∈ builtinNames then .builtin p0
        else .pipeline (ParseCommands (p0 :: args)) pb.2

/-- What the start-and-wait epilogue of `HandleCmd` (part_004) returns:
the error of a failed `c.Start()`, nil for a background pipeline, the
error of a failed `TIOCSPGRP` ioctl, or the `ForegroundProcess` sentinel
that makes the read loop call `Wait`. -/
inductive ExecOutcome
  | startErr
  | nilBackground
  | ioctlErr
  | foregroundSentinel
deriving DecidableEq

/-- Models the `for _, c := range cmds` start loop of `HandleCmd`
(part_004): each stage is a pair of "does `c.Start()` fail" and the
started process's pid; a failure returns the error at once (`none`).
The first successfully started stage fixes `sysProcAttr.Pgid` (via the
external `getpgid`) and `pgrp`, and appends its pid to `processGroups`. -/
def startStagesLoop (getpgid : Nat → Nat) :
    List (Bool × Nat) → Nat → Nat → List Nat → Option (Nat × Nat) × List Nat
  | [], pgidAttr, pgrp, groups => (some (pgidAttr, pgrp), groups)
  | (startFails, pid) :: rest, pgidAttr, pgrp, groups =>
    if startFails then (none, groups)
    else if pgidAttr = 0 then
      startStagesLoop getpgid rest (getpgid pid) (getpgid pid) (groups ++ [pid])
    else startStagesLoop getpgid rest pgidAttr pgrp groups

/-- Models the start-and-wait epilogue of `HandleCmd` (part_004, lines
308-341): run the start loop, then — only if every stage started — return
nil when `backgroundProcess` is set, else transfer the terminal via the
ioctl (whose failure, a parameter, returns its error) and return the
`ForegroundProcess` sentinel.  Also returns the final `processGroups`. -/
def startProcessesAndWait (getpgid : Nat → Nat) (stages : List (Bool × Nat))
    (backgroundProcess : Bool) (ioctlFails : Bool) (processGroups : List Nat) :
    ExecOutcome × List Nat :=
  match startStagesLoop getpgid stages 0 0 processGroups with
  | (none, groups) => (.startErr, groups)
  | (some _, groups) =>
    if backgroundProcess then (.nilBackground, groups)
    else if ioctlFails then (.ioctlErr, groups) else (.foregroundSentinel, groups)

/-- What one `syscall.Wait4(pg, ...)` call of the reaping pass in `Wait`
(part_004) observes for a tracked process group: `noChange` models
`pid1 == 0 && err == nil`, the next four model the `status.Continued()`,
`status.Stopped()`, `status.Signaled()` and `status.Exited()` cases, and
`running` models the default case. -/
inductive ChildStatus
  | noChange
  | continued
  | stopped
  | signaled
  | exited (code : Int)
  | running
deriving DecidableEq

/-- The state mutated by one reaping pass of `Wait` (part_004): the rebuilt
job table `newPg`, the `ForegroundPid` global, the trace of `os.Setenv`
calls, and the trace of `TIOCSPGRP` ioctl targets. -/
structure ReapState where
  newPg : List Nat
  ForegroundPid : Nat
  envSets : List (String × String)
  ioctls : List Nat
deriving DecidableEq

/-- The body of the `for _, pg := range processGroups` loop in `Wait`
(part_004), for one tracked group `pg`: keep the job on `noChange`,
`continued`, `stopped` and the default case and drop it on `signaled` and
`exited`; promote a continued job to foreground when there is none;
reclaim the terminal (ioctl targetting `mypid`) and zero `ForegroundPid`
when the foreground job stops, is signaled or exits; and on exit record
the textual exit code in the `?` environment variable. -/
def reapStep (status : Nat → ChildStatus) (mypid : Nat) (s : ReapState) (pg : Nat) : ReapState :=
  match status pg with
  | .noChange => { s with newPg := s.newPg ++ [pg] }
  | .continued =>
    let s := { s with newPg := s.newPg ++ [pg] }
    if s.ForegroundPid = 0 then
      { s with ioctls := s.ioctls ++ [pg], ForegroundPid := pg }
    else s
  | .stopped =>
    let s := { s with newPg := s.newPg ++ [pg] }
    if pg = s.ForegroundPid ∧ s.ForegroundPid ≠ 0 then
      { s with ioctls := s.ioctls ++ [mypid], ForegroundPid := 0 }
    else s
  | .signaled =>
    if pg = s.ForegroundPid ∧ s.ForegroundPid ≠ 0 then
      { s with ioctls := s.ioctls ++ [mypid], ForegroundPid := 0 }
    else s
  | .exited code =>
    let s :=
      if pg = s.ForegroundPid ∧ s.ForegroundPid ≠ 0 then
        { s with ioctls := s.ioctls ++ [mypid], ForegroundPid := 0 }
      else s
    { s with envSets := s.envSets ++ [("?", toString code)] }
  | .running => { s with newPg := s.newPg ++ [pg] }

/-- One full reaping pass of `Wait` (part_004) over the job table `pgs`
with current foreground pgid `fg`: the snapshot-and-replace sweep that
rebuilds `processGroups` as `newPg`. -/
def reapPass (status : Nat → ChildStatus) (mypid : Nat) (pgs : List Nat) (fg : Nat) : ReapState :=
  pgs.foldl (reapStep status mypid) ⟨[], fg, [], []⟩

/-- Status oracle for the claim C7 counterexample: the foreground job 5 is
stopped while job 7 is observed continued in the same pass. -/
def c7CxStatus : Nat → ChildStatus := fun pg => if pg = 5 then .stopped else .continued

/-- Models `strconv.Atoi`: `none` models a non-nil error (empty input, a
stray non-digit character, or a value outside the 64-bit signed range). -/
def goAtoi (s : String) : Option Int :=
  let signed : Bool × List Char :=
    match s.data with
    | '-' :: rest => (true, rest)
    | '+' :: rest => (false, rest)
    | l => (false, l)
  let ds := signed.2
  if ds.isEmpty then none
  else if ds.all Char.isDigit then
    let n : Nat := ds.foldl (fun acc c => acc * 10 + (c.toNat - '0'.toNat)) 0
    let v : Int := if signed.1 then -(n : Int) else (n : Int)
    if v < -(2 ^ 63) ∨ 2 ^ 63 - 1 < v then none else some v
  else none

/-- The observable side effects of the `fg` builtin: the `SIGCONT`
delivery, the `terminal.Restore()` call, and the `TIOCSPGRP` ioctl. -/
inductive FgEffect
  | sigcont (pid : Nat)
  | restoreTerminal
  | ioctl (pgid : Nat)
deriving DecidableEq

/-- How the `fg` case of `HandleCmd` returns: a non-nil error, the
`ForegroundProcess` sentinel, or the panic on an ioctl failure. -/
inductive FgResult
  | err (msg : String)
  | foregroundSentinel
  | crashed
deriving DecidableEq

/-- Models the `case "fg"` branch of `HandleCmd` (part_004, lines
197-229): error when the job id argument is missing, fails `strconv.Atoi`,
or is out of range of `processGroups`; otherwise signal `SIGCONT` to the
job's registered pid (`os.FindProcess` never fails on Unix; signal
failure is a parameter), restore the terminal, transfer terminal
ownership by ioctl (failure panics) and return the sentinel.  The first
component collects the performed effects in order. -/
def fgBuiltin (args : List String) (processGroups : List Nat)
    (signalFails ioctlFails : Bool) : List FgEffect × FgResult :=
  match args with
  | [] => ([], .err "Must specify job to foreground.")
  | a :: _ =>
    match goAtoi a with
    | none => ([], .err "invalid syntax")
    | some i =>
      if (processGroups.length : Int) ≤ i ∨ i < 0 then
        ([], .err "Invalid job id")
      else
        let pid := processGroups.getD i.toNat 0
        if signalFails then ([FgEffect.sigcont pid], .err "signal failed")
        else if ioctlFails then
          ([FgEffect.sigcont pid, FgEffect.restoreTerminal, FgEffect.ioctl pid], .crashed)
        else
          ([FgEffect.sigcont pid, FgEffect.restoreTerminal, FgEffect.ioctl pid],
            .foregroundSentinel)

/-- The `for i := range prefix` inner loop of `LongestPrefix` (prefix.go)
against one comparison string `cmp`: the remaining characters of the
current prefix are walked with their index `i`.  `none` models a Go
panic: the first guard `i > len(cmp)` would make `cmp[:i]` panic, and when
it is false and `i == len(cmp)` the comparison `cmp[i]` panics. -/
def lpLoop (cmp pfxFull : List Char) : List Char → Nat → Option (List Char)
  | [], _ => some pfxFull
  | p :: ps, i =>
    if cmp.length < i then none
    else if h : i < cmp.length then
      if p ≠ cmp.get ⟨i, h⟩ then some (cmp.take i)
      else lpLoop cmp pfxFull ps (i + 1)
    else none

/-- The `for _, cmp := range strs[1:]` outer loop of `LongestPrefix`. -/
def lpFold : List Char → List (List Char) → Option (List Char)
  | pfx, [] => some pfx
  | pfx, cmp :: rest =>
    match lpLoop cmp pfx pfx 0 with
    | none => none
    | some pfx2 => lpFold pfx2 rest

/-- Models `func LongestPrefix(strs []string) string` (prefix.go); `none`
models a runtime panic. -/
def LongestPrefix (strs : List String) : Option String :=
  match strs with
  | [] => some ""
  | first :: rest => ( lpFold first.data (rest.map String.data)).map String.mk

/-- Claim C1: on the token sequence
`[ls, >, foo, <, bar, |, cat, hello, >, x, |, tee]`, `ParseCommands` returns
exactly three stage descriptors: `{argv [ls], in "bar", out "foo"}`,
`{argv [cat, hello], in "", out "x"}` and `{argv [tee], in "", out ""}`. -/
theorem c1_parse_pipeline_example :
    ParseCommands ["ls", ">", "foo", "<", "bar", "|", "cat", "hello", ">", "x", "|", "tee"] =
      [⟨["ls"], "bar", "foo"⟩, ⟨["cat", "hello"], "", "x"⟩, ⟨["tee"], "", ""⟩] := by
  rfl

/-- Claim C3 counterexample: placing a redirection before the positional
argument does not yield the same parsed stage as placing it after:
`ParseCommands` on the tokens of `cmd >out arg` differs from `ParseCommands`
on the tokens of `cmd arg >out` (the former drops `arg` from argv). -/
theorem c3_redirect_order_counterexample :
    ParseCommands ["cmd", ">", "out", "arg"] ≠ ParseCommands ["cmd", "arg", ">", "out"] := by
  decide

/-- Claim C3 amended: for word tokens `cmd`, `arg`, `out` (none of them a
special token), both orders attach output path `out` to the stage, but the
argv differ: `ParseCommands` on the tokens of `cmd >out arg` yields argv
`[cmd]` — every word after the first redirection operator of a stage other
than the redirection path is dropped from argv — while the tokens of
`cmd arg >out` yield argv `[cmd, arg]`; the parser does assume redirections
are suffixes. -/
theorem c3_redirect_order_amended (cmd arg out : Token)
    (hc : cmd.IsSpecial = false) (ha : arg.IsSpecial = false) (ho : out.IsSpecial = false) :
    ParseCommands [cmd, ">", out, arg] = [⟨[cmd], "", out⟩] ∧
    ParseCommands [cmd, arg, ">", out] = [⟨[cmd, arg], "", out⟩] := by
  simp only [Token.IsSpecial, Bool.or_eq_false_iff, beq_eq_false_iff_ne] at hc ha ho
  obtain ⟨⟨hc1, hc2⟩, hc3⟩ := hc
  obtain ⟨⟨ha1, ha2⟩, ha3⟩ := ha
  obtain ⟨⟨ho1, ho2⟩, ho3⟩ := ho
  constructor <;>
    simp [ParseCommands, parseLoop, parseStep, Token.IsSpecial, Token.IsPipe,
      Token.IsStdinRedirect, Token.IsStdoutRedirect, hc1, hc2, hc3, ha1, ha2, ha3,
      ho1, ho2, ho3]

/-- Claim C3 amended, witness: the amended statement instantiated at the
word tokens `cmd`, `arg`, `out`. -/
theorem c3_redirect_order_amended_witness :
    ParseCommands ["cmd", ">", "out", "arg"] = [⟨["cmd"], "", "out"⟩] ∧
    ParseCommands ["cmd", "arg", ">", "out"] = [⟨["cmd", "arg"], "", "out"⟩] :=
  c3_redirect_order_amended "cmd" "arg" "out" (by decide) (by decide) (by decide)

/-- Claim C4: outside a single-quoted literal, each occurrence of `|`, `<`,
`>` or `&` is emitted by the tokenizer as its own single-character token,
splitting (flushing) any in-progress word token at that point: whenever the
scan reaches such a character with `inStringLiteral = false`, it appends the
pending word (if one is open) and then the one-character token, and resumes
with no open token.  Conjoined with the concrete instance
`Tokenize "ls<foo" = [ls, <, foo]`. -/
theorem c4_special_char_splits :
    (∀ (full rest : List Char) (i : Nat) (ts : Int) (parsed : List String) (chr : Char),
      (chr = '|' ∨ chr = '<' ∨ chr = '>' ∨ chr = '&') →
      tokenizeAux full (chr :: rest) i ts false parsed =
        tokenizeAux full rest (i + 1) (-1) false
          ((if ts ≥ 0 then parsed ++ [strSlice full ts.toNat i] else parsed) ++ [String.mk [chr]]))
    ∧ Tokenize "ls<foo" = some ["ls", "<", "foo"] := by
  constructor
  · intro full rest i ts parsed chr h
    rcases h with rfl | rfl | rfl | rfl <;> rfl
  · rfl

/-- Claim C4 witness: the splitting equation instantiated at the `<` of
`ls<foo`, reached at position 2 with the word started at position 0. -/
theorem c4_special_char_splits_witness :
    tokenizeAux "ls<foo".data ('<' :: "foo".data) 2 0 false [] =
      tokenizeAux "ls<foo".data "foo".data 3 (-1) false ["ls", "<"] :=
  c4_special_char_splits.1 "ls<foo".data "foo".data 2 0 [] '<' (Or.inr (Or.inl rfl))

/-- Claim C8: evaluating the tokenizer at the failing input.  On a line
ending inside an open single-quoted literal, the epilogue advances
`tokenStart` once more although it already points past the opening quote, so
the first character of the literal is lost: `Tokenize "'abc"` returns
`["bc"]`, not `["abc"]` as the claim (and the code's own
"Ignore the ' character" comment) intend. -/
theorem c8_unterminated_literal_drops_first_char :
    Tokenize "'abc" = some ["bc"] := by rfl

/-- Claim C2: evaluating `HandleCmd`'s token flow at the failing input
`ls &` (with an expansion-free environment and a glob that matches
nothing).  The background flag is set, but because `args` is computed from
`parsed[1:]` before the trailing `&` is stripped from `parsed`, the `&`
token reaches `ParseCommands` and ends up in the single stage's argv —
contradicting the claim and the code's own comment
"Strip off the &, it's not part of the command." -/
theorem c2_background_token_reaches_argv :
    HandleCmdDispatch (fun s => s) (fun s => s) (fun _ => some []) "ls &" =
      .pipeline [⟨["ls", "&"], "", ""⟩] true := by rfl

/-- Claim C5 counterexample: a background pipeline whose single stage fails
to start makes `HandleCmd` return the start error, which is not the nil
return — so the error is not nil for every background invocation. -/
theorem c5_background_start_failure_counterexample :
    (startProcessesAndWait (fun p => p) [(true, 7)] true false []).1 = .startErr ∧
    ExecOutcome.startErr ≠ ExecOutcome.nilBackground := by decide

/-- When every stage starts successfully the start loop completes without
an early error return. -/
theorem startStagesLoop_all_ok (getpgid : Nat → Nat) (stages : List (Bool × Nat)) :
    ∀ (a p : Nat) (gs : List Nat), (∀ s ∈ stages, s.1 = false) →
    ∃ v g, startStagesLoop getpgid stages a p gs = (some v, g) := by
  induction stages with
  | nil => intro a p gs _; exact ⟨(a, p), gs, rfl⟩
  | cons s rest ih =>
    intro a p gs h
    obtain ⟨f, pid⟩ := s
    have hf : f = false := h (f, pid) (List.mem_cons_self _ _)
    subst hf
    simp only [startStagesLoop, Bool.false_eq_true, if_false]
    split
    · exact ih _ _ _ (fun x hx => h x (List.mem_cons_of_mem _ hx))
    · exact ih _ _ _ (fun x hx => h x (List.mem_cons_of_mem _ hx))

/-- Claim C5 amended: a background pipeline returns control with a nil
error and without waiting on any child, provided every stage starts
successfully; a per-stage start failure instead makes `HandleCmd` return
that stage's non-nil start error immediately (even for a background
invocation), skipping the remaining stages. -/
theorem c5_background_nil_amended (getpgid : Nat → Nat) (stages : List (Bool × Nat))
    (ioctlFails : Bool) (processGroups : List Nat) (h : ∀ s ∈ stages, s.1 = false) :
    (startProcessesAndWait getpgid stages true ioctlFails processGroups).1 = .nilBackground := by
  obtain ⟨v, g, hvg⟩ := startStagesLoop_all_ok getpgid stages 0 0 processGroups h
  simp [startProcessesAndWait, hvg]

/-- Claim C5 amended, witness: one successfully started background stage
yields the nil return. -/
theorem c5_background_nil_amended_witness :
    (startProcessesAndWait (fun p => p) [(false, 3)] true false []).1 = .nilBackground :=
  c5_background_nil_amended (fun p => p) [(false, 3)] false [] (by decide)

/-- A reap step never removes an element already in the rebuilt table. -/
theorem reapStep_newPg_mono (status : Nat → ChildStatus) (mypid : Nat) (s : ReapState)
    (pg x : Nat) (hx : x ∈ s.newPg) : x ∈ (reapStep status mypid s pg).newPg := by
  unfold reapStep
  cases status pg <;> dsimp only <;> (try split) <;> simp_all

/-- A reap sweep never removes an element already in the rebuilt table. -/
theorem reapFold_newPg_mono (status : Nat → ChildStatus) (mypid : Nat) (pgs : List Nat) :
    ∀ (s : ReapState) (x : Nat), x ∈ s.newPg →
    x ∈ (pgs.foldl (reapStep status mypid) s).newPg := by
  induction pgs with
  | nil => intro s x hx; exact hx
  | cons q rest ih =>
    intro s x hx
    exact ih _ x (reapStep_newPg_mono status mypid s q x hx)

/-- A reap step never discards a recorded environment assignment. -/
theorem reapStep_envSets_mono (status : Nat → ChildStatus) (mypid : Nat) (s : ReapState)
    (pg : Nat) (e : String × String) (he : e ∈ s.envSets) :
    e ∈ (reapStep status mypid s pg).envSets := by
  unfold reapStep
  cases status pg <;> dsimp only <;> (try split) <;> simp_all

/-- A reap sweep never discards a recorded environment assignment. -/
theorem reapFold_envSets_mono (status : Nat → ChildStatus) (mypid : Nat) (pgs : List Nat) :
    ∀ (s : ReapState) (e : String × String), e ∈ s.envSets →
    e ∈ (pgs.foldl (reapStep status mypid) s).envSets := by
  induction pgs with
  | nil => intro s e he; exact he
  | cons q rest ih =>
    intro s e he
    exact ih _ e (reapStep_envSets_mono status mypid s q e he)

/-- A group whose status is exited is never added to the rebuilt table by
any reap step. -/
theorem reapStep_exited_removed (status : Nat → ChildStatus) (mypid : Nat) (s : ReapState)
    (pg q : Nat) (code : Int) (hst : status pg = .exited code) (hpg : pg ∉ s.newPg) :
    pg ∉ (reapStep status mypid s q).newPg := by
  by_cases hq : q = pg
  · subst hq
    simp only [reapStep, hst]
    split <;> simp_all
  · have hne : pg ≠ q := fun h => hq h.symm
    unfold reapStep
    cases status q <;> dsimp only <;> (try split) <;> simp_all

/-- Processing an exited group records its textual exit code in `?`. -/
theorem reapStep_exited_sets (status : Nat → ChildStatus) (mypid : Nat) (s : ReapState)
    (pg : Nat) (code : Int) (hst : status pg = .exited code) :
    ("?", toString code) ∈ (reapStep status mypid s pg).envSets := by
  simp only [reapStep, hst]
  split <;> simp

/-- A sweep keeps an exited group out of the rebuilt table. -/
theorem reapFold_exited_removed (status : Nat → ChildStatus) (mypid : Nat) (pgs : List Nat)
    (pg : Nat) (code : Int) (hst : status pg = .exited code) :
    ∀ (s : ReapState), pg ∉ s.newPg →
    pg ∉ (pgs.foldl (reapStep status mypid) s).newPg := by
  induction pgs with
  | nil => intro s h; exact h
  | cons q rest ih =>
    intro s h
    exact ih _ (reapStep_exited_removed status mypid s pg q code hst h)

/-- A sweep over a table containing an exited group records its exit
code. -/
theorem reapFold_exited_sets (status : Nat → ChildStatus) (mypid : Nat) (pgs : List Nat)
    (pg : Nat) (code : Int) (hst : status pg = .exited code) :
    ∀ (s : ReapState), pg ∈ pgs →
    ("?", toString code) ∈ (pgs.foldl (reapStep status mypid) s).envSets := by
  induction pgs with
  | nil => intro s h; cases h
  | cons q rest ih =>
    intro s h
    rcases List.mem_cons.mp h with h | h
    · subst h
      exact reapFold_envSets_mono status mypid rest _ _
        (reapStep_exited_sets status mypid s pg code hst)
    · exact ih _ h

/-- Claim C6: when a reaping pass observes an exited status for a tracked
job's process group, that job is not carried into the rebuilt job table,
and the `?` environment variable is set (an `os.Setenv` call is recorded)
to the textual exit code reported for that process. -/
theorem c6_exited_removed_and_status_recorded (status : Nat → ChildStatus) (mypid : Nat)
    (pgs : List Nat) (fg pg : Nat) (code : Int)
    (hmem : pg ∈ pgs) (hst : status pg = .exited code) :
    pg ∉ (reapPass status mypid pgs fg).newPg ∧
    ("?", toString code) ∈ (reapPass status mypid pgs fg).envSets := by
  constructor
  · exact reapFold_exited_removed status mypid pgs pg code hst _ (by simp)
  · exact reapFold_exited_sets status mypid pgs pg code hst _ hmem

/-- Claim C6 witness: a single tracked job with pgid 5 that exits with
code 0 is removed and `?` is set to `0`. -/
theorem c6_exited_removed_and_status_recorded_witness :
    (5 : Nat) ∈ [(5 : Nat)] ∧
    (5 : Nat) ∉ (reapPass (fun _ => .exited 0) 99 [5] 5).newPg ∧
    ("?", toString (0 : Int)) ∈ (reapPass (fun _ => .exited 0) 99 [5] 5).envSets :=
  ⟨by decide, c6_exited_removed_and_status_recorded (fun _ => .exited 0) 99 [5] 5 5 0
    (by decide) rfl⟩

/-- A sweep over jobs none of which is continued keeps `ForegroundPid` at
zero once it is zero. -/
theorem reapStep_fg_zero_stays (status : Nat → ChildStatus) (mypid : Nat) (s : ReapState)
    (q : Nat) (hnc : status q ≠ .continued) (h0 : s.ForegroundPid = 0) :
    (reapStep status mypid s q).ForegroundPid = 0 := by
  unfold reapStep
  cases hq : status q <;> dsimp only <;> (try split) <;> simp_all

/-- The sweep version of `reapStep_fg_zero_stays`. -/
theorem reapFold_fg_zero_stays (status : Nat → ChildStatus) (mypid : Nat) (pgs : List Nat) :
    ∀ (s : ReapState), (∀ q ∈ pgs, status q ≠ .continued) → s.ForegroundPid = 0 →
    (pgs.foldl (reapStep status mypid) s).ForegroundPid = 0 := by
  induction pgs with
  | nil => intro s _ h0; exact h0
  | cons q rest ih =>
    intro s hnc h0
    exact ih _ (fun x hx => hnc x (List.mem_cons_of_mem _ hx))
      (reapStep_fg_zero_stays status mypid s q (hnc q (List.mem_cons_self _ _)) h0)

/-- Processing a non-continued group other than the foreground one leaves
`ForegroundPid` unchanged. -/
theorem reapStep_fg_keep (status : Nat → ChildStatus) (mypid : Nat) (s : ReapState)
    (q fg : Nat) (hq : q ≠ fg) (hnc : status q ≠ .continued) (hs : s.ForegroundPid = fg) :
    (reapStep status mypid s q).ForegroundPid = fg := by
  unfold reapStep
  cases hsq : status q <;> dsimp only <;> (try split) <;> simp_all

/-- Sweep lemma behind the amended claim C7: starting from any state whose
foreground pgid is the stopped job `fg`, a sweep without continued jobs
zeroes the foreground pgid and keeps `fg` in the rebuilt table. -/
theorem reapFold_stopped_fg (status : Nat → ChildStatus) (mypid : Nat) (fg : Nat)
    (hfg : fg ≠ 0) (hstop : status fg = .stopped) :
    ∀ (pgs : List Nat) (s : ReapState), (∀ q ∈ pgs, status q ≠ .continued) →
    s.ForegroundPid = fg → fg ∈ pgs →
    (pgs.foldl (reapStep status mypid) s).ForegroundPid = 0 ∧
    fg ∈ (pgs.foldl (reapStep status mypid) s).newPg := by
  intro pgs
  induction pgs with
  | nil => intro s _ _ hmem; cases hmem
  | cons q rest ih =>
    intro s hnc hsfg hmem
    by_cases hq : q = fg
    · subst hq
      have hstep : (reapStep status mypid s q).ForegroundPid = 0 ∧
          q ∈ (reapStep status mypid s q).newPg := by
        simp only [reapStep, hstop]
        rw [if_pos ⟨hsfg.symm, hsfg ▸ hfg⟩]
        simp
      constructor
      · exact reapFold_fg_zero_stays status mypid rest _
          (fun x hx => hnc x (List.mem_cons_of_mem _ hx)) hstep.1
      · exact reapFold_newPg_mono status mypid rest _ _ hstep.2
    · have hmem' : fg ∈ rest := by
        rcases List.mem_cons.mp hmem with h | h
        · exact absurd h.symm hq
        · exact h
      exact ih _ (fun x hx => hnc x (List.mem_cons_of_mem _ hx))
        (reapStep_fg_keep status mypid s q fg hq (hnc q (List.mem_cons_self _ _)) hsfg) hmem'

/-- Claim C7 counterexample: a reaping pass with foreground pgid 5 that
observes job 5 stopped and job 7 continued ends with foreground pgid 7,
not 0: the continued job is promoted after the foreground job's stop
reclaimed the terminal, so the claimed postcondition fails. -/
theorem c7_stopped_foreground_counterexample :
    c7CxStatus 5 = .stopped ∧ (5 : Nat) ≠ 0 ∧ (5 : Nat) ∈ [5, 7] ∧
    (reapPass c7CxStatus 99 [5, 7] 5).ForegroundPid = 7 ∧
    (reapPass c7CxStatus 99 [5, 7] 5).ForegroundPid ≠ 0 := by decide

/-- Claim C7 amended: when a reaping pass observes a stopped status for
the job whose pgid equals the current (non-zero) foreground pgid, that
job is still present in the rebuilt job table, and — provided no tracked
job is observed continued in the same pass (a continued job would be
promoted to the vacated foreground) — the foreground pgid is 0 after the
pass. -/
theorem c7_stopped_foreground_amended (status : Nat → ChildStatus) (mypid : Nat)
    (pgs : List Nat) (fg : Nat) (hfg : fg ≠ 0) (hmem : fg ∈ pgs)
    (hstop : status fg = .stopped) (hnc : ∀ q ∈ pgs, status q ≠ .continued) :
    (reapPass status mypid pgs fg).ForegroundPid = 0 ∧
    fg ∈ (reapPass status mypid pgs fg).newPg :=
  reapFold_stopped_fg status mypid fg hfg hstop pgs _ hnc rfl hmem

/-- Claim C7 amended, witness: a single stopped foreground job with pgid 5
is kept in the table and the foreground pgid is reset to 0. -/
theorem c7_stopped_foreground_amended_witness :
    (reapPass (fun _ => .stopped) 99 [5] 5).ForegroundPid = 0 ∧
    (5 : Nat) ∈ (reapPass (fun _ => .stopped) 99 [5] 5).newPg :=
  c7_stopped_foreground_amended (fun _ => .stopped) 99 [5] 5 (by decide) (by decide) rfl
    (by intro q _; simp)

/-- Claim C9: an `fg` invocation whose argument is missing, non-numeric,
or outside the valid job-table indices returns a non-nil error, and its
recorded effect trace is empty — no `SIGCONT` delivery and no
terminal-ownership ioctl happen before the error return. -/
theorem c9_fg_bad_id_no_effects (args : List String) (pgs : List Nat) (sf iof : Bool)
    (h : args = [] ∨ ∃ a rest, args = a :: rest ∧
      (goAtoi a = none ∨ ∃ i, goAtoi a = some i ∧ ((pgs.length : Int) ≤ i ∨ i < 0))) :
    (∃ msg, (fgBuiltin args pgs sf iof).2 = .err msg) ∧ (fgBuiltin args pgs sf iof).1 = [] := by
  rcases h with rfl | ⟨a, rest, rfl, h⟩
  · exact ⟨⟨_, rfl⟩, rfl⟩
  · rcases h with hnone | ⟨i, hi, hrange⟩
    · simp [fgBuiltin, hnone]
    · simp only [fgBuiltin, hi]
      rw [if_pos hrange]
      exact ⟨⟨_, rfl⟩, rfl⟩

/-- Claim C9 witness: `fg 9` with a one-entry job table errors out with no
effects. -/
theorem c9_fg_bad_id_no_effects_witness :
    (∃ msg, (fgBuiltin ["9"] [5] false false).2 = .err msg) ∧
    (fgBuiltin ["9"] [5] false false).1 = [] :=
  c9_fg_bad_id_no_effects ["9"] [5] false false
    (Or.inr ⟨"9", [], rfl, Or.inr ⟨9, rfl, by decide⟩⟩)

/-- Claim C10: evaluating `LongestPrefix` at the failing input
`["ab", "a"]`: the inner loop reaches `i = 1 = len(cmp)` with the guard
`i > len(cmp)` false, so `cmp[i]` is an out-of-range index access
(a runtime panic, modelled by `none`) instead of the claimed result "a".
The remaining conjuncts evaluate the embedding on every case of the
repository's `TestLongestPrefix` table, which all pass. -/
theorem c10_longest_prefix_out_of_range :
    LongestPrefix ["ab", "a"] = none ∧
    LongestPrefix [] = some "" ∧
    LongestPrefix ["a"] = some "a" ∧
    LongestPrefix ["a", "b"] = some "" ∧
    LongestPrefix ["aa", "ab"] = some "a" ∧
    LongestPrefix ["aaaa", "aabb", "aaac"] = some "aa" :=
  ⟨rfl, rfl, rfl, rfl, rfl, rfl⟩

end Gosh
